import Mathlib

/-!
Verification of the retype-cli refactoring engine against its specification.

The development shallowly embeds the engine's services (rename, extract,
find-unused, fix-imports, search, glob matching) as executable Lean
functions mirroring the TypeScript source, and proves or refutes the
frozen claims about them.  The language-model provider (ts-morph) is
treated as an external collaborator: reference resolution and AST-level
data (declaration text, identifier sets, import declarations,
diagnostics) enter the model as explicit data or function parameters.
-/

namespace ReType

/-- The six entity kinds (src/src/types/index.ts, `EntityKind`). -/
inductive EntityKind
  | function
  | classDecl
  | variableDecl
  | interfaceDecl
  | typeAlias
  | enumDecl
  deriving DecidableEq, Repr

/-- Kind of an underlying AST node.  Entities built by
`extractEntitiesFromFile` carry one of the six declaration node kinds,
but a stale or foreign handle may hold any other node kind, which is
what the `otherNode` constructor represents. -/
inductive NodeKind
  | functionDeclaration
  | classDeclaration
  | variableDeclaration
  | interfaceDeclaration
  | typeAliasDeclaration
  | enumDeclaration
  | otherNode (description : String)
  deriving DecidableEq, Repr

/-- Provider view of the variable statement enclosing a variable
declaration node: how many declarators it has, its declaration keyword
(`const`/`let`/`var`) and its full text
(used by `ExtractService.getFullEntityText`). -/
structure VarStmt where
  declCount : Nat
  keyword : String
  text : String
  deriving DecidableEq, Repr

/-- An entity record (src/src/types/index.ts, `Entity`).  The opaque
`node`/`sourceFile` handles are replaced by the data the services read
from them: the node kind, the node's start offset, its full text and
the set of identifiers occurring in its subtree. -/
structure Entity where
  name : String
  kind : EntityKind
  filePath : String
  line : Nat
  column : Nat
  isExported : Bool
  nodeKind : NodeKind
  nodeStart : Nat
  fullText : String
  usedIdentifiers : List String
  varStmt : Option VarStmt
  deriving DecidableEq, Repr

/-- One reference node as returned by the provider's `findReferences`:
the file it lives in, that file's full text, the node's start offset and
the kind of its immediate syntactic parent. -/
structure RefNode where
  filePath : String
  fileText : String
  start : Nat
  parentKind : Option NodeKind
  deriving DecidableEq, Repr

/-- `RenameResult` (src/src/types/index.ts). -/
structure RenameResult where
  oldName : String
  newName : String
  filesModified : List String
  referencesUpdated : Nat
  deriving DecidableEq, Repr

/-- One entry of `previewRename`'s result: `{ file, line, text }`. -/
structure Reference where
  file : String
  line : Nat
  text : String
  deriving DecidableEq, Repr

/-- 1-based line of a character offset, as computed by ts-morph's
`getLineAndColumnAtPos`: one plus the number of newline characters
before the offset. -/
def lineOfPos (text : String) (pos : Nat) : Nat :=
  ((text.toList.take pos).filter (fun c => c == '\n')).length + 1

/-- Containment of `pat` as a contiguous run inside `s`. -/
def listContainsRun (s pat : List Char) : Bool :=
  if pat.isPrefixOf s then true
  else
    match s with
    | [] => false
    | _ :: xs => listContainsRun xs pat

/-- JS `String.prototype.includes`: substring containment. -/
def jsIncludes (s sub : String) : Bool :=
  listContainsRun s.toList sub.toList

/-- JS `String.prototype.endsWith`. -/
def jsEndsWith (s suffix : String) : Bool :=
  List.isPrefixOf suffix.toList.reverse s.toList.reverse

/-- JS `String.prototype.startsWith`. -/
def jsStartsWith (s pre : String) : Bool :=
  List.isPrefixOf pre.toList s.toList

/-- Whitespace for JS `String.prototype.trim` (ASCII portion). -/
def isJsSpace (c : Char) : Bool :=
  c == ' ' || c == '\t' || c == '\n' || c == '\r'

/-- JS `String.prototype.trim`. -/
def jsTrim (s : String) : String :=
  String.mk (((s.toList.dropWhile isJsSpace).reverse.dropWhile isJsSpace).reverse)

/-- Split a character list at every occurrence of `sep` (JS
`split(sep)` semantics for a one-character separator: `""` splits to
`[""]`, adjacent separators yield empty pieces). -/
def splitCharList (sep : Char) : List Char → List (List Char)
  | [] => [[]]
  | c :: cs =>
      let r := splitCharList sep cs
      if c == sep then [] :: r
      else
        match r with
        | h :: t => (c :: h) :: t
        | [] => [[c]]

/-- JS `string.split("\n")`. -/
def splitLines (s : String) : List String :=
  (splitCharList '\n' s.toList).map String.mk

/-- `sourceFile.getFullText().split("\n")[line - 1] || ""` as used by
`RenameService.previewRename` and `ReferencesService`. -/
def lineTextAt (text : String) (line : Nat) : String :=
  (splitLines text).getD (line - 1) ""

namespace RenameService

/-- `RenameService.isRenameable` (src/src/utils/path-input.ts, lines
528-537): the node is one of the six renameable declaration kinds. -/
def isRenameable (k : NodeKind) : Bool :=
  k == .functionDeclaration ||
  k == .classDeclaration ||
  k == .variableDeclaration ||
  k == .interfaceDeclaration ||
  k == .typeAliasDeclaration ||
  k == .enumDeclaration

/-- The slice of the language-model provider consumed by
`RenameService`: `node.findReferences()` flattened over referenced
symbols, and `node.rename(newName)` as a transformation of the
project's in-memory state `σ`. -/
structure RenameProvider (σ : Type) where
  findRefs : Entity → List RefNode
  applyRename : σ → Entity → String → σ

/-- `RenameService.findReferences` (src/src/utils/path-input.ts, lines
510-526): returns the empty list for a non-renameable node, otherwise
the provider's flattened reference list. -/
def findReferences {σ : Type} (prov : RenameProvider σ) (e : Entity) : List RefNode :=
  if isRenameable e.nodeKind then prov.findRefs e else []

/-- `new Set` fed in list order then `Array.from`: deduplication
keeping first occurrences. -/
def dedupFirst (l : List String) : List String :=
  l.foldl (fun acc x => if x ∈ acc then acc else acc ++ [x]) []

/-- `RenameService.previewRename` (src/src/utils/path-input.ts, lines
493-508): one `{ file, line, text }` record per reference, where `text`
is the trimmed source line containing the reference. -/
def previewRename {σ : Type} (prov : RenameProvider σ) (e : Entity) : List Reference :=
  (findReferences prov e).map (fun ref =>
    let line := lineOfPos ref.fileText ref.start
    { file := ref.filePath
      line := line
      text := jsTrim (lineTextAt ref.fileText line) })

/-- `RenameService.rename` (src/src/utils/path-input.ts, lines 451-481):
collects the reference list, records the touched files, performs the
provider rename only when the node is renameable, and reports the
pre-rename reference count.  `project.saveAll()` persists the in-memory
state to disk and does not change it, so it is not represented. -/
def rename {σ : Type} (prov : RenameProvider σ) (st : σ) (e : Entity)
    (newName : String) : RenameResult × σ :=
  let references := findReferences prov e
  let filesModified := dedupFirst (references.map (·.filePath))
  if isRenameable e.nodeKind then
    ({ oldName := e.name, newName := newName, filesModified := filesModified,
       referencesUpdated := references.length },
     prov.applyRename st e newName)
  else
    ({ oldName := e.name, newName := newName, filesModified := filesModified,
       referencesUpdated := 0 }, st)

end RenameService

/-- `UnusedResult` (src/src/types/index.ts). -/
structure UnusedResult where
  entity : Entity
  reason : String
  deriving DecidableEq, Repr

/-- Return value of `UnusedService.checkIfUnused`: `{ unused, reason }`. -/
structure UnusedCheck where
  unused : Bool
  reason : String
  deriving DecidableEq, Repr

/-- One loaded source file as seen by `UnusedService.findUnused`: its
path and the entity list `extractEntitiesFromFile` derives from its
parsed tree (the extraction itself is provider work). -/
structure FileEntry where
  path : String
  entities : List Entity
  deriving DecidableEq, Repr

namespace UnusedService

/-- The six `Node.isXDeclaration` checks guarding
`UnusedService.getReferences` (src/unnamed/part_... `unused.service`). -/
def isDeclarationNode (k : NodeKind) : Bool :=
  k == .functionDeclaration ||
  k == .classDeclaration ||
  k == .variableDeclaration ||
  k == .interfaceDeclaration ||
  k == .typeAliasDeclaration ||
  k == .enumDeclaration

/-- `UnusedService.getReferences`: for a declaration-kind node, query the
provider inside try/catch — a provider failure (`none`) is swallowed and
yields the empty list; other node kinds never reach the provider. -/
def getReferences (refsOf : Entity → Option (List RefNode)) (e : Entity) :
    List RefNode :=
  if isDeclarationNode e.nodeKind then (refsOf e).getD [] else []

/-- The definition-site tolerance window test: same file and start
offsets within 10 of each other (`Math.abs(refStart - nodeStart) < 10`). -/
def definitionWindow (e : Entity) (ref : RefNode) : Bool :=
  ref.filePath == e.filePath &&
    decide (((ref.start : Int) - (e.nodeStart : Int)).natAbs < 10)

/-- The `externalReferences` binding of `checkIfUnused`: provider
references with the self-definition occurrence filtered out. -/
def externalReferences (refsOf : Entity → Option (List RefNode))
    (e : Entity) : List RefNode :=
  (getReferences refsOf e).filter (fun ref => !(definitionWindow e ref))

/-- The `sameFileRefs` binding of `checkIfUnused`. -/
def sameFileRefs (refsOf : Entity → Option (List RefNode)) (e : Entity) :
    List RefNode :=
  (externalReferences refsOf e).filter (fun ref => ref.filePath == e.filePath)

/-- Parent-is-a-declaration test used by the `realUsages` filter
(`Node.isVariableDeclaration || Node.isFunctionDeclaration ||
Node.isClassDeclaration` on the reference's parent). -/
def isDeclParent (ref : RefNode) : Bool :=
  match ref.parentKind with
  | some k =>
      k == .variableDeclaration || k == .functionDeclaration ||
        k == .classDeclaration
  | none => false

/-- The `realUsages` binding of `checkIfUnused`. -/
def realUsages (refsOf : Entity → Option (List RefNode)) (e : Entity) :
    List RefNode :=
  (sameFileRefs refsOf e).filter (fun ref => !(isDeclParent ref))

/-- `UnusedService.checkIfUnused`: entry-point files are always used;
otherwise the provider reference list is filtered by the definition-site
tolerance window, then classified: no surviving references means unused;
for non-exported entities whose surviving references are all in their
own file, references whose parents are themselves declarations are
discarded and the entity is unused when none survive. -/
def checkIfUnused (refsOf : Entity → Option (List RefNode)) (e : Entity) :
    UnusedCheck :=
  if jsEndsWith e.filePath "index.ts" || jsEndsWith e.filePath "main.ts" then
    ⟨false, ""⟩
  else if (externalReferences refsOf e).length == 0 then
    if e.isExported then
      ⟨true, "Exported but never imported or used elsewhere"⟩
    else
      ⟨true, "Not exported and never used in its file"⟩
  else if !e.isExported then
    if (sameFileRefs refsOf e).length == (externalReferences refsOf e).length
    then
      if (realUsages refsOf e).length == 0 then
        ⟨true, "Declared but never used"⟩
      else ⟨false, ""⟩
    else ⟨false, ""⟩
  else ⟨false, ""⟩

/-- `UnusedService.findUnused`: scan every file's entities and collect
those classified unused, in scan order. -/
def findUnused (files : List FileEntry)
    (refsOf : Entity → Option (List RefNode)) : List UnusedResult :=
  files.flatMap (fun f =>
    f.entities.filterMap (fun e =>
      let c := checkIfUnused refsOf e
      if c.unused then some ⟨e, c.reason⟩ else none))

end UnusedService

/-- Entity whose reference resolution fails, used to refute C3. -/
def brokenEntity : Entity :=
  { name := "broken", kind := .function, filePath := "/p/src/util.ts",
    line := 1, column := 10, isExported := true,
    nodeKind := .functionDeclaration, nodeStart := 0,
    fullText := "function broken() \x7b\x7d", usedIdentifiers := [],
    varStmt := none }

/-- Entity with a resolvable cross-file reference, scanned after the
failing one. -/
def liveEntity : Entity :=
  { name := "live", kind := .function, filePath := "/p/src/other.ts",
    line := 1, column := 10, isExported := true,
    nodeKind := .functionDeclaration, nodeStart := 0,
    fullText := "function live() \x7b\x7d", usedIdentifiers := [],
    varStmt := none }

/-- Provider that throws for `brokenEntity` and resolves one cross-file
reference for everything else. -/
def failingRefsOf : Entity → Option (List RefNode) := fun e =>
  if e.name == "broken" then none
  else some [⟨"/p/src/third.ts", "live()", 0, none⟩]

/-- One import declaration as the provider exposes it: its full text,
module specifier, named imports, and the optional default and
namespace imports. -/
structure ImportDecl where
  text : String
  moduleSpecifier : String
  namedImports : List String
  defaultImport : Option String
  namespaceImport : Option String
  deriving DecidableEq, Repr

/-- ts-morph diagnostic categories. -/
inductive DiagCategory
  | error
  | warning
  | suggestion
  | message
  deriving DecidableEq, Repr

/-- One compiler diagnostic: category, message text and optional start
offset (`diagnostic.getStart()` may be undefined). -/
structure Diagnostic where
  category : DiagCategory
  message : String
  start : Option Nat
  deriving DecidableEq, Repr

/-- One loaded source file of the Project Index.  `text` is the raw
text (`getFullText`), while `imports`, `entities` and `diagnostics` are
the provider's structured views of the parsed tree. -/
structure SrcFile where
  path : String
  text : String
  imports : List ImportDecl
  entities : List Entity
  diagnostics : List Diagnostic
  deriving DecidableEq, Repr

/-- `SearchOptions` (search.service).  `regex` is a JS optional boolean
tested for truthiness, so `false` covers both absent and false. -/
structure SearchOptions where
  name : Option String := none
  kind : Option EntityKind := none
  exported : Option Bool := none
  file : Option String := none
  regex : Bool := false
  deriving Repr

/-- `SearchResult` (src/src/types/index.ts) without the wall-clock
`searchTime` field, which has no place in a functional model. -/
structure SearchResult where
  entities : List Entity
  totalFiles : Nat
  deriving DecidableEq, Repr

/-- Error raised by `new RegExp` on an invalid pattern. -/
inductive PatternError
  | invalidPattern
  deriving DecidableEq, Repr

/-- The JS regular-expression engine as an abstract collaborator:
`compile pat` is `new RegExp(pat, "i")`, returning `none` when the
pattern is invalid (the constructor throws) and otherwise a
case-insensitive test function. -/
structure RegexEngine where
  compile : String → Option (String → Bool)

/-- JS truthiness of an optional string: absent and `""` are falsy. -/
def strTruthy : Option String → Bool
  | none => false
  | some s => !(s == "")

/-- JS `String.prototype.toLowerCase` (per-character lowering). -/
def jsToLower (s : String) : String :=
  String.mk (s.toList.map Char.toLower)

namespace SearchService

/-- The file-level pre-filter of `SearchService.search`: when
`options.file` is truthy, keep files whose absolute path contains it. -/
def fileEligible (options : SearchOptions) (f : SrcFile) : Bool :=
  if strTruthy options.file then jsIncludes f.path (options.file.getD "")
  else true

/-- `SearchService.search` (search.service, lines 14-61): collect the
entities of eligible files, then apply the name filter (substring or
compiled case-insensitive pattern), the kind filter and the exported
filter in sequence.  An invalid pattern propagates as a
`PatternError`. -/
def search (eng : RegexEngine) (files : List SrcFile)
    (options : SearchOptions) : Except PatternError SearchResult :=
  let allEntities := (files.filter (fileEligible options)).flatMap (·.entities)
  let nameFiltered : Except PatternError (List Entity) :=
    if strTruthy options.name then
      if options.regex then
        match eng.compile (options.name.getD "") with
        | none => Except.error PatternError.invalidPattern
        | some test => Except.ok (allEntities.filter (fun e => test e.name))
      else
        Except.ok (allEntities.filter (fun e =>
          jsIncludes (jsToLower e.name) (jsToLower (options.name.getD ""))))
    else Except.ok allEntities
  match nameFiltered with
  | Except.error err => Except.error err
  | Except.ok filtered =>
      let kindFiltered :=
        match options.kind with
        | some k => filtered.filter (fun e => e.kind == k)
        | none => filtered
      let exportedFiltered :=
        match options.exported with
        | some b => kindFiltered.filter (fun e => e.isExported == b)
        | none => kindFiltered
      Except.ok { entities := exportedFiltered, totalFiles := files.length }

/-- Kind filter as the spec words it: when given, an exact match. -/
def kindPass (options : SearchOptions) (e : Entity) : Bool :=
  match options.kind with
  | some k => e.kind == k
  | none => true

/-- Exported filter as the spec words it: when given, an exact match. -/
def exportedPass (options : SearchOptions) (e : Entity) : Bool :=
  match options.exported with
  | some b => e.isExported == b
  | none => true

/-- Modelled from the spec (§4.3 and C6): the result set is exactly the
entities of the eligible files that satisfy all given filters at once —
with no name (absent or empty) every entity passes; with a name and
`regex` unset, a case-insensitive substring match; with `regex` set, the
name compiles to a case-insensitive pattern (invalid patterns propagate
an error) and the entity passes iff the pattern matches its name; `kind`
and `exported` are exact-match filters. -/
def searchSpec (eng : RegexEngine) (files : List SrcFile)
    (options : SearchOptions) : Except PatternError SearchResult :=
  let ents := (files.filter (fileEligible options)).flatMap (·.entities)
  if strTruthy options.name then
    if options.regex then
      match eng.compile (options.name.getD "") with
      | none => Except.error PatternError.invalidPattern
      | some test =>
          Except.ok
            { entities := ents.filter (fun e =>
                test e.name && (kindPass options e && exportedPass options e)),
              totalFiles := files.length }
    else
      Except.ok
        { entities := ents.filter (fun e =>
            jsIncludes (jsToLower e.name) (jsToLower (options.name.getD "")) &&
              (kindPass options e && exportedPass options e)),
          totalFiles := files.length }
  else
    Except.ok
      { entities := ents.filter (fun e =>
          kindPass options e && exportedPass options e),
        totalFiles := files.length }

end SearchService

/-- `ImportError` (imports.service). -/
structure ImportError where
  file : String
  line : Nat
  column : Nat
  message : String
  missingName : String
  deriving DecidableEq, Repr

/-- `FixableImport` (imports.service). -/
structure FixableImport where
  error : ImportError
  candidates : List Entity
  selectedCandidate : Option Entity := none
  deriving DecidableEq, Repr

/-- `UnfixableImport` (imports.service). -/
structure UnfixableImport where
  error : ImportError
  reason : String
  deriving DecidableEq, Repr

/-- `ImportAnalysis` (imports.service). -/
structure ImportAnalysis where
  fixable : List FixableImport
  unfixable : List UnfixableImport
  deriving DecidableEq, Repr

/-- The single-quote character of the diagnostic message patterns. -/
def quoteChar : Char := Char.ofNat 39

/-- JS `\w`: ASCII letters, digits and underscore. -/
def isWordChar (c : Char) : Bool :=
  c.isAlpha || c.isDigit || c == '_'

/-- The literal part of the pattern `Cannot find name '(\w+)'`. -/
def cannotFindNameLit : List Char :=
  "Cannot find name ".toList ++ [quoteChar]

/-- The literal part of the pattern `Cannot find module '([^']+)'`. -/
def cannotFindModuleLit : List Char :=
  "Cannot find module ".toList ++ [quoteChar]

/-- First match of `Cannot find name '(\w+)'` in a character list,
with JS regex semantics: at each start position the literal prefix must
match, then a non-empty greedy word-character run immediately followed
by a closing quote; the engine otherwise advances one position. -/
def findNameMatch : List Char → Option String
  | [] => none
  | s@(_ :: rest) =>
      if cannotFindNameLit.isPrefixOf s then
        let t := s.drop cannotFindNameLit.length
        let run := t.takeWhile isWordChar
        if run.isEmpty then findNameMatch rest
        else
          match t.drop run.length with
          | c :: _ =>
              if c == quoteChar then some (String.mk run)
              else findNameMatch rest
          | [] => findNameMatch rest
      else findNameMatch rest

/-- `messageStr.match(/Cannot find name '(\w+)'/)` and its capture. -/
def matchCannotFindName (msg : String) : Option String :=
  findNameMatch msg.toList

/-- First match of `Cannot find module '([^']+)'` in a character list:
literal prefix, then a non-empty run of non-quote characters terminated
by a closing quote. -/
def findModuleMatch : List Char → Option String
  | [] => none
  | s@(_ :: rest) =>
      if cannotFindModuleLit.isPrefixOf s then
        let t := s.drop cannotFindModuleLit.length
        let run := t.takeWhile (fun c => !(c == quoteChar))
        if run.isEmpty then findModuleMatch rest
        else
          match t.drop run.length with
          | c :: _ =>
              if c == quoteChar then some (String.mk run)
              else findModuleMatch rest
          | [] => findModuleMatch rest
      else findModuleMatch rest

/-- `messageStr.match(/Cannot find module '([^']+)'/)` and its capture. -/
def matchCannotFindModule (msg : String) : Option String :=
  findModuleMatch msg.toList

/-- 1-based column of a character offset (ts-morph
`getLineAndColumnAtPos`): one plus the distance to the preceding
newline. -/
def colOfPos (text : String) (pos : Nat) : Nat :=
  ((text.toList.take pos).reverse.takeWhile (fun c => !(c == '\n'))).length + 1

namespace ImportsService

/-- Build the `ImportError` record of a diagnostic: line/column from its
start offset when defined, else `0/0`. -/
def mkImportError (f : SrcFile) (d : Diagnostic) (missingName : String) :
    ImportError :=
  match d.start with
  | some start =>
      { file := f.path, line := lineOfPos f.text start,
        column := colOfPos f.text start, message := d.message,
        missingName := missingName }
  | none =>
      { file := f.path, line := 0, column := 0, message := d.message,
        missingName := missingName }

/-- The candidate filter applied to the search result for a missing
name: exact name, exported, and in a different file than the error. -/
def exactMatchFilter (f : SrcFile) (missingName : String) (e : Entity) :
    Bool :=
  e.name == missingName && e.isExported && !(e.filePath == f.path)

/-- The contributions of one diagnostic to `analyzeImportErrors`
(imports.service, lines 41-100): for an error-category diagnostic, the
`Cannot find name` branch searches the project and classifies the
diagnostic fixable or unfixable, and the `Cannot find module` branch
adds an unfixable entry; a thrown `PatternError` would propagate. -/
def analyzeDiagnostic (eng : RegexEngine) (files : List SrcFile)
    (f : SrcFile) (d : Diagnostic) :
    Except PatternError (List FixableImport × List UnfixableImport) :=
  if d.category == DiagCategory.error then
    let namePart : Except PatternError
        (List FixableImport × List UnfixableImport) :=
      match matchCannotFindName d.message with
      | some missingName =>
          match SearchService.search eng files { name := some missingName } with
          | Except.error err => Except.error err
          | Except.ok searchResult =>
              let exactMatches :=
                searchResult.entities.filter (exactMatchFilter f missingName)
              if 0 < exactMatches.length then
                Except.ok
                  ([{ error := mkImportError f d missingName,
                      candidates := exactMatches }], [])
              else
                Except.ok
                  ([],
                   [{ error := mkImportError f d missingName,
                      reason := "No exported entity named \"" ++ missingName ++
                        "\" found in the codebase" }])
      | none => Except.ok ([], [])
    match namePart with
    | Except.error err => Except.error err
    | Except.ok (fix1, unfix1) =>
        match matchCannotFindModule d.message with
        | some moduleName =>
            Except.ok
              (fix1,
               unfix1 ++
                 [{ error := mkImportError f d moduleName,
                    reason := "Module \"" ++ moduleName ++
                      "\" not found - may need to be installed or path corrected" }])
        | none => Except.ok (fix1, unfix1)
  else Except.ok ([], [])

/-- Fold of `analyzeDiagnostic` over one file's diagnostics, appending
contributions in scan order. -/
def analyzeFileDiags (eng : RegexEngine) (files : List SrcFile)
    (f : SrcFile) :
    List Diagnostic →
      Except PatternError (List FixableImport × List UnfixableImport)
  | [] => Except.ok ([], [])
  | d :: ds =>
      match analyzeDiagnostic eng files f d with
      | Except.error err => Except.error err
      | Except.ok (fix1, unfix1) =>
          match analyzeFileDiags eng files f ds with
          | Except.error err => Except.error err
          | Except.ok (fixRest, unfixRest) =>
              Except.ok (fix1 ++ fixRest, unfix1 ++ unfixRest)

/-- Fold of the per-file scan over all loaded files. -/
def analyzeFiles (eng : RegexEngine) (files : List SrcFile) :
    List SrcFile →
      Except PatternError (List FixableImport × List UnfixableImport)
  | [] => Except.ok ([], [])
  | f :: fs =>
      match analyzeFileDiags eng files f f.diagnostics with
      | Except.error err => Except.error err
      | Except.ok (fix1, unfix1) =>
          match analyzeFiles eng files fs with
          | Except.error err => Except.error err
          | Except.ok (fixRest, unfixRest) =>
              Except.ok (fix1 ++ fixRest, unfix1 ++ unfixRest)

/-- `ImportsService.analyzeImportErrors` (imports.service, lines
32-104). -/
def analyzeImportErrors (eng : RegexEngine) (files : List SrcFile) :
    Except PatternError ImportAnalysis :=
  match analyzeFiles eng files files with
  | Except.error err => Except.error err
  | Except.ok (fixable, unfixable) => Except.ok ⟨fixable, unfixable⟩

/-- Modelled from the spec (§4.7 and C5): the candidates for a missing
name are exactly the exported entities literally named `X` located in a
different file than the error, in extraction order (file order, then
per-file entity order). -/
def specCandidates (files : List SrcFile) (f : SrcFile)
    (missingName : String) : List Entity :=
  (files.flatMap (·.entities)).filter (exactMatchFilter f missingName)

/-- Modelled from the spec (§4.7 and C5): per-diagnostic
classification — a `Cannot find name X` error diagnostic is fixable iff
at least one exported entity named `X` exists in another file, with
candidates exactly all such entities in extraction order, else
unfixable with the no-exported-entity reason; a `Cannot find module`
error diagnostic is always unfixable. -/
def analyzeDiagnosticSpec (files : List SrcFile) (f : SrcFile)
    (d : Diagnostic) : List FixableImport × List UnfixableImport :=
  if d.category == DiagCategory.error then
    let namePart : List FixableImport × List UnfixableImport :=
      match matchCannotFindName d.message with
      | some missingName =>
          let candidates := specCandidates files f missingName
          if 0 < candidates.length then
            ([{ error := mkImportError f d missingName,
                candidates := candidates }], [])
          else
            ([],
             [{ error := mkImportError f d missingName,
                reason := "No exported entity named \"" ++ missingName ++
                  "\" found in the codebase" }])
      | none => ([], [])
    match matchCannotFindModule d.message with
    | some moduleName =>
        (namePart.1,
         namePart.2 ++
           [{ error := mkImportError f d moduleName,
              reason := "Module \"" ++ moduleName ++
                "\" not found - may need to be installed or path corrected" }])
    | none => namePart
  else ([], [])

/-- Spec-side fold over one file's diagnostics. -/
def analyzeFileDiagsSpec (files : List SrcFile) (f : SrcFile) :
    List Diagnostic → List FixableImport × List UnfixableImport
  | [] => ([], [])
  | d :: ds =>
      let first := analyzeDiagnosticSpec files f d
      let rest := analyzeFileDiagsSpec files f ds
      (first.1 ++ rest.1, first.2 ++ rest.2)

/-- Spec-side fold over all files. -/
def analyzeFilesSpec (files : List SrcFile) :
    List SrcFile → List FixableImport × List UnfixableImport
  | [] => ([], [])
  | f :: fs =>
      let first := analyzeFileDiagsSpec files f f.diagnostics
      let rest := analyzeFilesSpec files fs
      (first.1 ++ rest.1, first.2 ++ rest.2)

/-- Modelled from the spec: the whole-project import analysis with
direct exact-match candidate search. -/
def analyzeImportErrorsSpec (files : List SrcFile) : ImportAnalysis :=
  ⟨(analyzeFilesSpec files files).1, (analyzeFilesSpec files files).2⟩

end ImportsService

/-- JS regex line terminators, which `.` does not match. -/
def isLineTerm (c : Char) : Bool :=
  c == '\n' || c == '\r' || c.val == 0x2028 || c.val == 0x2029

/-- Tokens of the regex text produced by `ProjectManager.matchesPattern`
(src/src/core/project.ts, lines 57-63). -/
inductive GTok
  | lit (c : Char)
  | anyChar
  | starNonSlash
  deriving DecidableEq, Repr

/-- The suffixes of `s` reachable by consuming zero or more leading
characters matched by `[^/]` (anything but a slash), in consumption
order. -/
def nonSlashSuffixes : List Char → List (List Char)
  | [] => [[]]
  | x :: xs => (x :: xs) :: (if x == '/' then [] else nonSlashSuffixes xs)

/-- All suffixes of `s`, in consumption order, reachable by consuming
zero or more arbitrary characters. -/
def allSuffixes : List Char → List (List Char)
  | [] => [[]]
  | x :: xs => (x :: xs) :: allSuffixes xs

namespace ProjectManager

/-- The compiled form of a glob pattern after the source's three global
replacements, applied in order: `**` becomes `.*`, then every `*`
(including the one just produced) becomes `[^/]*`, then `/` becomes
`\/`.  Hence `**` compiles to `.` followed by `[^/]*`, a single `*`
compiles to `[^/]*`, `/` stays a literal slash, and a literal `.` of
the pattern remains the regex any-character class. -/
def globCompile : List Char → List GTok
  | [] => []
  | '*' :: '*' :: rest => .anyChar :: .starNonSlash :: globCompile rest
  | '*' :: rest => .starNonSlash :: globCompile rest
  | '.' :: rest => .anyChar :: globCompile rest
  | c :: rest => .lit c :: globCompile rest

/-- Matching of the compiled tokens against a prefix of `s` (the regex
is unanchored, so trailing input is ignored once the tokens are
exhausted); `[^/]*` is matched by trying every non-slash split. -/
def matchHere : List GTok → List Char → Bool
  | [], _ => true
  | .lit c :: ts, s =>
      match s with
      | [] => false
      | x :: xs => x == c && matchHere ts xs
  | .anyChar :: ts, s =>
      match s with
      | [] => false
      | x :: xs => !isLineTerm x && matchHere ts xs
  | .starNonSlash :: ts, s =>
      (nonSlashSuffixes s).any (fun s2 => matchHere ts s2)

/-- JS `RegExp.prototype.test` for the unanchored compiled pattern: try
a match at every start position. -/
def testRe (t : List GTok) : List Char → Bool
  | [] => matchHere t []
  | x :: xs => matchHere t (x :: xs) || testRe t xs

/-- `ProjectManager.matchesPattern` (src/src/core/project.ts, lines
57-63): compile the glob via the three replacements and test the file
path against the resulting unanchored pattern. -/
def matchesPattern (filePath pattern : String) : Bool :=
  testRe (globCompile pattern.toList) filePath.toList

end ProjectManager

/-- Modelled from the spec (§4.2 and C7): anchored glob semantics in
which `**` matches any sequence of characters including path
separators, a single `*` matches any sequence within one path segment
(never across `/`), and every other character matches itself. -/
def globSpecMatch : List Char → List Char → Bool
  | [], s =>
      match s with
      | [] => true
      | _ :: _ => false
  | '*' :: '*' :: ps, s => (allSuffixes s).any (fun s2 => globSpecMatch ps s2)
  | '*' :: ps, s => (nonSlashSuffixes s).any (fun s2 => globSpecMatch ps s2)
  | c :: ps, s =>
      match s with
      | [] => false
      | x :: xs => c == x && globSpecMatch ps xs

/-- The spec's glob semantics on strings (path, then pattern). -/
def globSpecMatchStr (filePath pattern : String) : Bool :=
  globSpecMatch pattern.toList filePath.toList

/-- `path.isAbsolute` on POSIX. -/
def isAbsolutePath (p : String) : Bool :=
  jsStartsWith p "/"

/-- Segments of a path split at `/`. -/
def splitPathSegs (p : String) : List String :=
  (splitCharList '/' p.toList).map String.mk

/-- Segment normalization for an absolute path: drop empty and `.`
segments, let `..` pop the previous segment (and vanish at the root,
as `path.resolve` does). -/
def normalizeSegs (segs : List String) : List String :=
  segs.foldl (fun acc seg =>
    if seg == "" || seg == "." then acc
    else if seg == ".." then acc.dropLast
    else acc ++ [seg]) []

/-- Join absolute-path segments back into a path. -/
def joinAbs (segs : List String) : String :=
  "/" ++ String.intercalate "/" segs

/-- `path.resolve(base, rel)` for an absolute `base` (the project root
and file paths of this engine are absolute). -/
def pathResolve (base rel : String) : String :=
  if isAbsolutePath rel then joinAbs (normalizeSegs (splitPathSegs rel))
  else joinAbs (normalizeSegs (splitPathSegs (base ++ "/" ++ rel)))

/-- `path.dirname` on POSIX (for the slash-free case it returns `.`,
and the parent of a root-level entry is `/`). -/
def pathDirname (p : String) : String :=
  let cs := p.toList
  match cs.reverse.findIdx? (fun c => c == '/') with
  | none => "."
  | some i =>
      let keep := cs.take (cs.length - i - 1)
      if keep.isEmpty then "/" else String.mk keep

/-- Length of the common prefix of two segment lists. -/
def countCommonPrefix : List String → List String → Nat
  | a :: as, b :: bs => if a == b then countCommonPrefix as bs + 1 else 0
  | _, _ => 0

/-- `path.relative(from, to)` for absolute arguments: walk up from
`from` with `..` segments past the common prefix, then down into
`to`. -/
def pathRelative (fromPath toPath : String) : String :=
  let f := normalizeSegs (splitPathSegs fromPath)
  let t := normalizeSegs (splitPathSegs toPath)
  let common := countCommonPrefix f t
  String.intercalate "/" (List.replicate (f.length - common) ".." ++ t.drop common)

/-- Relative-path segment normalization for `path.normalize`: empty and
`.` segments vanish, `..` pops a previous real segment and is kept when
there is none to pop. -/
def normalizeRelSegs (segs : List String) : List String :=
  segs.foldl (fun acc seg =>
    if seg == "" || seg == "." then acc
    else if seg == ".." then
      if acc.isEmpty || acc.getLast? == some ".." then acc ++ [".."]
      else acc.dropLast
    else acc ++ [seg]) []

/-- `normalizePath` (src/src/utils/path.ts): `path.normalize` plus
backslash-to-slash replacement (a no-op for the POSIX paths modelled
here). -/
def normalizePath (p : String) : String :=
  if isAbsolutePath p then joinAbs (normalizeSegs (splitPathSegs p))
  else
    let segs := normalizeRelSegs (splitPathSegs p)
    if segs.isEmpty then "." else String.intercalate "/" segs

/-- `getRelativePath` (src/src/utils/path.ts, lines 310-319): relative
path from `from`'s directory to `to`, normalized, with a `./` prefix
when it does not already start with a dot. -/
def getRelativePath (fromPath toPath : String) : String :=
  let relativePath := pathRelative (pathDirname fromPath) toPath
  let normalized := normalizePath relativePath
  if !(jsStartsWith normalized ".") then "./" ++ normalized else normalized

/-- `path.extname` on POSIX: the last `.`-suffix of the basename, empty
for dotfiles and extensionless names. -/
def pathExtname (p : String) : String :=
  let basename := (p.toList.reverse.takeWhile (fun c => !(c == '/'))).reverse
  match basename.reverse.findIdx? (fun c => c == '.') with
  | none => ""
  | some i =>
      if i == basename.length - 1 then ""
      else String.mk ((basename.reverse.take (i + 1)).reverse)

/-- `removeExtension` (src/src/utils/path.ts, lines 339-342):
`filePath.slice(0, -ext.length)`.  Note that for an empty extension JS
`slice(0, -0)` is `slice(0, 0)`, the empty string. -/
def removeExtension (p : String) : String :=
  let ext := pathExtname p
  if ext.toList.length == 0 then ""
  else String.mk (p.toList.take (p.toList.length - ext.toList.length))

/-- `isTypeScriptFile` (src/src/utils/path.ts, lines 344-347). -/
def isTypeScriptFile (p : String) : Bool :=
  let ext := jsToLower (pathExtname p)
  ext == ".ts" || ext == ".tsx"

/-- The provider's serialization of an import declaration added through
`addImportDeclaration` with named imports. -/
def renderImportText (named : List String) (spec : String) : String :=
  "import \x7b " ++ String.intercalate ", " named ++ " \x7d from \"" ++
    spec ++ "\";"

/-- ts-morph `addNamedImport`: append the name to the named imports of
the first declaration with the given module specifier. -/
def addNamedImport (imports : List ImportDecl) (spec name : String) :
    List ImportDecl :=
  match imports with
  | [] => []
  | i :: rest =>
      if i.moduleSpecifier == spec then
        { i with namedImports := i.namedImports ++ [name] } :: rest
      else i :: addNamedImport rest spec name

/-- `ExtractResult` (src/src/types/index.ts). -/
structure ExtractResult where
  entityName : String
  sourcePath : String
  targetPath : String
  importsUpdated : List String
  deriving DecidableEq, Repr

/-- The Project Index: root path and loaded files
(`ProjectManager`). -/
structure ProjectState where
  rootPath : String
  files : List SrcFile
  deriving DecidableEq, Repr

namespace ExtractService

/-- Prefixing with `export ` unless already present, as extract forces
an export modifier onto moved declarations. -/
def ensureExport (t : String) : String :=
  if jsStartsWith t "export " then t else "export " ++ t

/-- `ExtractService.getFullEntityText` (src/unnamed/part_004, lines
78-109): for a variable declaration, move the whole statement when it
is the sole declarator, else synthesize a single-declarator exported
statement with the statement's keyword; for every other node, its
trimmed full text with a forced export. -/
def getFullEntityText (e : Entity) : String :=
  if e.nodeKind == .variableDeclaration then
    match e.varStmt with
    | some stmt =>
        if stmt.declCount == 1 then ensureExport (jsTrim stmt.text)
        else "export " ++ stmt.keyword ++ " " ++ jsTrim e.fullText ++ ";"
    | none => ensureExport (jsTrim e.fullText)
  else ensureExport (jsTrim e.fullText)

/-- `ExtractService.getRequiredImports` (src/unnamed/part_004, lines
111-144): the trimmed texts of the origin imports one of whose named,
default or namespace names occurs among the moved node's
identifiers. -/
def getRequiredImports (e : Entity) (sourceImports : List ImportDecl) :
    List String :=
  (sourceImports.filter (fun imp =>
    imp.namedImports.any (fun n => e.usedIdentifiers.contains n) ||
    (match imp.defaultImport with
     | some d => e.usedIdentifiers.contains d
     | none => false) ||
    (match imp.namespaceImport with
     | some n => e.usedIdentifiers.contains n
     | none => false))).map (fun imp => jsTrim imp.text)

/-- The last-import scan of `mergeContent`: index of the last line whose
trimmed text starts with `import `. -/
def lastImportIndex (lines : List String) : Option Nat :=
  (List.range lines.length).foldl (fun acc i =>
    if jsStartsWith (jsTrim (lines.getD i "")) "import " then some i
    else acc) none

/-- `lines.splice(i + 1, 0, ...new)`. -/
def spliceAfter (lines : List String) (i : Nat) (new : List String) :
    List String :=
  lines.take (i + 1) ++ new ++ lines.drop (i + 1)

/-- The line-level work of `ExtractService.mergeContent`
(src/unnamed/part_004, lines 146-179): insert the carried-over import
lines that are not already textually present in the destination after
the last existing import (or at the top, followed by a blank line, when
there is none), then append a blank line and the moved declaration. -/
def mergeLines (existingContent newEntityText : String)
    (newImports : List String) : List String :=
  let lines := splitLines existingContent
  let importsToAdd := newImports.filter (fun imp =>
    !(jsIncludes existingContent imp))
  let lines2 :=
    if 0 < importsToAdd.length then
      match lastImportIndex lines with
      | some i => spliceAfter lines i importsToAdd
      | none => importsToAdd ++ [""] ++ lines
    else lines
  lines2 ++ ["", newEntityText]

/-- `ExtractService.mergeContent`: the merged lines joined with
newlines. -/
def mergeContent (existingContent newEntityText : String)
    (newImports : List String) : String :=
  String.intercalate "\n" (mergeLines existingContent newEntityText newImports)

/-- `ExtractService.createFileContent` (src/unnamed/part_004, lines
181-193). -/
def createFileContent (entityText : String) (imports : List String) :
    String :=
  if 0 < imports.length then
    String.intercalate "\n" [String.intercalate "\n" imports, "", entityText, ""]
  else String.intercalate "\n" [entityText, ""]

/-- `ExtractService.resolveModulePath` (src/unnamed/part_004, lines
257-277): non-relative specifiers resolve to themselves; relative ones
resolve against the importing file's directory, probing the file system
for `.ts`, `.tsx` and `index.ts` completions. -/
def resolveModulePath (fsExists : String → Bool)
    (fromPath moduleSpecifier : String) : String :=
  if !(jsStartsWith moduleSpecifier ".") then moduleSpecifier
  else
    let dir := pathDirname fromPath
    let resolved := pathResolve dir moduleSpecifier
    if !(jsEndsWith resolved ".ts") && !(jsEndsWith resolved ".tsx") then
      if fsExists (resolved ++ ".ts") then resolved ++ ".ts"
      else if fsExists (resolved ++ ".tsx") then resolved ++ ".tsx"
      else if fsExists (resolved ++ "/index.ts") then resolved ++ "/index.ts"
      else resolved
    else resolved

/-- The per-import rewiring of `updateSourceFileImports` for one
importer: each import resolving to the origin file and naming the
entity is redirected — in place when the entity was its only named
one, otherwise the name is removed and a fresh import from the
destination is appended; the importer's path is recorded once per
matching import. -/
def updateFileImports (fsExists : String → Bool) (entity : Entity)
    (targetPath : String) (f : SrcFile) : SrcFile × List String :=
  let step := f.imports.foldl
    (fun (acc : List ImportDecl × List ImportDecl × List String) imp =>
      let resolvedPath := resolveModulePath fsExists f.path imp.moduleSpecifier
      if resolvedPath == entity.filePath &&
          imp.namedImports.any (fun n => n == entity.name) then
        let newModuleSpecifier :=
          removeExtension (getRelativePath f.path targetPath)
        let remaining := imp.namedImports.filter (fun n => !(n == entity.name))
        if remaining.isEmpty then
          (acc.1 ++ [{ imp with moduleSpecifier := newModuleSpecifier }],
           acc.2.1, acc.2.2 ++ [f.path])
        else
          (acc.1 ++ [{ imp with namedImports := remaining }],
           acc.2.1 ++ [⟨renderImportText [entity.name] newModuleSpecifier,
             newModuleSpecifier, [entity.name], none, none⟩],
           acc.2.2 ++ [f.path])
      else (acc.1 ++ [imp], acc.2.1, acc.2.2))
    ([], [], [])
  ({ f with imports := step.1 ++ step.2.1 }, step.2.2)

/-- `ExtractService.updateSourceFileImports` (src/unnamed/part_004,
lines 195-255): rewire every loaded file other than the origin and the
destination, collecting the touched file paths in scan order. -/
def updateSourceFileImports (fsExists : String → Bool)
    (files : List SrcFile) (entity : Entity) (targetPath : String) :
    List SrcFile × List String :=
  (files.map (fun f =>
    if f.path == entity.filePath || f.path == targetPath then f
    else (updateFileImports fsExists entity targetPath f).1),
   files.flatMap (fun f =>
    if f.path == entity.filePath || f.path == targetPath then []
    else (updateFileImports fsExists entity targetPath f).2))

/-- `ExtractService.removeEntityFromSource` (src/unnamed/part_004,
lines 279-299) on the declaration view: the moved node (or its sole
declarator statement) disappears from the origin file's declarations. -/
def removeEntityFromSource (files : List SrcFile) (e : Entity) :
    List SrcFile :=
  files.map (fun f =>
    if f.path == e.filePath then
      { f with entities := f.entities.filter (fun e2 => !(e2 == e)) }
    else f)

/-- `ExtractService.addImportToSource` (src/unnamed/part_004, lines
301-326): import the moved entity into the origin file from the
destination, merging into an existing import from the same specifier. -/
def addImportToSource (files : List SrcFile)
    (sourcePath entityName targetPath : String) : List SrcFile :=
  let relativePath := removeExtension (getRelativePath sourcePath targetPath)
  files.map (fun f =>
    if f.path == sourcePath then
      match f.imports.find? (fun i => i.moduleSpecifier == relativePath) with
      | some existing =>
          if existing.namedImports.any (fun n => n == entityName) then f
          else { f with imports :=
                  (addNamedImport f.imports relativePath entityName) }
      | none =>
          { f with imports := f.imports ++
              [⟨renderImportText [entityName] relativePath, relativePath,
                [entityName], none, none⟩] }
    else f)

/-- The absolute destination path computed by `extract`. -/
def absTarget (st : ProjectState) (targetPath : String) : String :=
  if isAbsolutePath targetPath then targetPath
  else pathResolve st.rootPath targetPath

/-- The origin file's import declarations (`entity.sourceFile`'s import
list, reached through the index in this model). -/
def sourceImportsOf (st : ProjectState) (e : Entity) : List ImportDecl :=
  match st.files.find? (fun f => f.path == e.filePath) with
  | some sf => sf.imports
  | none => []

/-- `ExtractService.extract` (src/unnamed/part_004, lines 18-76): no
validation of the target path; capture the declaration text and its
required imports, materialize the destination (merge into a loaded file
or create a new one), rewire every importer, remove the declaration
from the origin, import it back into the origin, and persist.
`ensureDirectoryExists` and `saveAll` touch only the file system and
have no in-memory effect; the structured views of a newly created
destination are provider-derived and not modelled (no operation of this
development reads them). -/
def extract (fsExists : String → Bool) (st : ProjectState)
    (entity : Entity) (targetPath : String) : ExtractResult × ProjectState :=
  let absoluteTargetPath := absTarget st targetPath
  let sourceImports := sourceImportsOf st entity
  let entityText := getFullEntityText entity
  let requiredImports := getRequiredImports entity sourceImports
  let files1 :=
    match st.files.find? (fun f => f.path == absoluteTargetPath) with
    | some targetFile =>
        let newContent := mergeContent targetFile.text entityText
          requiredImports
        st.files.map (fun f =>
          if f.path == absoluteTargetPath then { f with text := newContent }
          else f)
    | none =>
        st.files ++
          [{ path := absoluteTargetPath,
             text := createFileContent entityText requiredImports,
             imports := [], entities := [], diagnostics := [] }]
  let rewired := updateSourceFileImports fsExists files1 entity
    absoluteTargetPath
  let files3 := removeEntityFromSource rewired.1 entity
  let files4 := addImportToSource files3 entity.filePath entity.name
    absoluteTargetPath
  ({ entityName := entity.name, sourcePath := entity.filePath,
     targetPath := absoluteTargetPath, importsUpdated := rewired.2 },
   { st with files := files4 })

end ExtractService

namespace ImportsService

/-- `ImportsService.fixImport` (src/src/services/imports.service.ts,
lines 106-145): auto-select the sole candidate when none is selected
(no-op `false` with several candidates), bail out with `false` when the
erroring file is not loaded, otherwise add the missing name to an
existing import from the candidate's module specifier or append a
new import declaration, returning `true`. -/
def fixImport (files : List SrcFile) (fix : FixableImport) :
    Bool × List SrcFile :=
  let selected :=
    match fix.selectedCandidate with
    | some c => some c
    | none =>
        if fix.candidates.length == 1 then fix.candidates.head? else none
  match selected with
  | none => (false, files)
  | some candidate =>
      match files.find? (fun f => f.path == fix.error.file) with
      | none => (false, files)
      | some _ =>
          let relativePath :=
            removeExtension (getRelativePath fix.error.file candidate.filePath)
          (true, files.map (fun f =>
            if f.path == fix.error.file then
              match f.imports.find? (fun i =>
                  i.moduleSpecifier == relativePath) with
              | some existing =>
                  if existing.namedImports.any (fun n => n == candidate.name)
                  then f
                  else { f with imports :=
                          (addNamedImport f.imports relativePath
                            candidate.name) }
              | none =>
                  { f with imports := f.imports ++
                      [⟨renderImportText [candidate.name] relativePath,
                        relativePath, [candidate.name], none, none⟩] }
            else f))

end ImportsService

/-- An entity used to demonstrate extraction behaviour. -/
def greetEntity : Entity :=
  { name := "greet", kind := .function, filePath := "/p/src/a.ts",
    line := 1, column := 10, isExported := false,
    nodeKind := .functionDeclaration, nodeStart := 0,
    fullText := "function greet() \x7b\x7d", usedIdentifiers := [],
    varStmt := none }

/-- A one-file project whose only file declares `greetEntity`. -/
def extractDemoState : ProjectState :=
  { rootPath := "/p",
    files := [{ path := "/p/src/a.ts", text := "function greet() \x7b\x7d",
                imports := [], entities := [greetEntity],
                diagnostics := [] }] }

/-- A fix whose erroring file is not loaded, with a selected
candidate. -/
def orphanFix : FixableImport :=
  { error := { file := "/p/missing.ts", line := 3, column := 5,
               message := "unresolved identifier", missingName := "live" },
    candidates := [liveEntity], selectedCandidate := some liveEntity }

/-- Number of lines equal to `s`. -/
def countLineOccurrences (lines : List String) (s : String) : Nat :=
  (lines.filter (fun l => l == s)).length

/-- An import declaration shared by the merge-demo files. -/
def xImport : ImportDecl :=
  { text := "import \x7b x \x7d from \"./c\";", moduleSpecifier := "./c",
    namedImports := ["x"], defaultImport := none, namespaceImport := none }

/-- The entity being extracted in the merge demo; it uses `x`, so the
`./c` import is carried over. -/
def utilEntity : Entity :=
  { name := "util", kind := .function, filePath := "/p/src/a.ts",
    line := 3, column := 17, isExported := false,
    nodeKind := .functionDeclaration, nodeStart := 30,
    fullText := "function util() \x7b return x; \x7d",
    usedIdentifiers := ["util", "x"], varStmt := none }

/-- The origin file of the merge demo. -/
def mergeSourceFile : SrcFile :=
  { path := "/p/src/a.ts",
    text := "import \x7b x \x7d from \"./c\";\n\nfunction util() \x7b return x; \x7d",
    imports := [xImport], entities := [utilEntity], diagnostics := [] }

/-- The already-loaded destination of the merge demo, which already
contains the same import line. -/
def mergeTargetFile : SrcFile :=
  { path := "/p/src/b.ts",
    text := "import \x7b x \x7d from \"./c\";\n\nexport function other() \x7b\x7d",
    imports := [xImport], entities := [], diagnostics := [] }

/-- The two-file project of the merge demo. -/
def mergeDemoState : ProjectState :=
  { rootPath := "/p", files := [mergeSourceFile, mergeTargetFile] }

/-- C1: for every entity whose underlying node is one of the six
renameable declaration kinds and every new name, `rename` reports a
`referencesUpdated` count equal to the length of the reference list
`previewRename` returns immediately before the rename; both derive from
the same provider reference query over the entity's declaration node,
counted before any text substitution. -/
theorem rename_counts_preview {σ : Type} (prov : RenameService.RenameProvider σ)
    (st : σ) (e : Entity) (newName : String)
    (h : RenameService.isRenameable e.nodeKind = true) :
    (RenameService.rename prov st e newName).1.referencesUpdated =
      (RenameService.previewRename prov e).length := by
  simp [RenameService.rename, RenameService.previewRename, h]

/-- Witness for C1: a concrete renameable function entity with two
provider references; the rename result counts exactly the preview's
two references. -/
theorem rename_counts_preview_witness :
    RenameService.isRenameable NodeKind.functionDeclaration = true ∧
      (RenameService.rename
        ⟨fun _ => [⟨"/p/a.ts", "greet()", 0, none⟩, ⟨"/p/b.ts", "greet()", 0, none⟩],
          fun (s : Nat) _ _ => s + 1⟩ 0
        { name := "greet", kind := .function, filePath := "/p/a.ts", line := 1,
          column := 10, isExported := true, nodeKind := .functionDeclaration,
          nodeStart := 0, fullText := "function greet() \x7b\x7d",
          usedIdentifiers := [], varStmt := none }
        "welcome").1.referencesUpdated =
      (RenameService.previewRename
        ⟨fun _ => [⟨"/p/a.ts", "greet()", 0, none⟩, ⟨"/p/b.ts", "greet()", 0, none⟩],
          fun (s : Nat) _ _ => s + 1⟩
        { name := "greet", kind := .function, filePath := "/p/a.ts", line := 1,
          column := 10, isExported := true, nodeKind := .functionDeclaration,
          nodeStart := 0, fullText := "function greet() \x7b\x7d",
          usedIdentifiers := [], varStmt := none }).length :=
  ⟨by decide,
   rename_counts_preview
     ⟨fun _ => [⟨"/p/a.ts", "greet()", 0, none⟩, ⟨"/p/b.ts", "greet()", 0, none⟩],
       fun (s : Nat) _ _ => s + 1⟩ 0
     { name := "greet", kind := .function, filePath := "/p/a.ts", line := 1,
       column := 10, isExported := true, nodeKind := .functionDeclaration,
       nodeStart := 0, fullText := "function greet() \x7b\x7d",
       usedIdentifiers := [], varStmt := none }
     "welcome" (by decide)⟩

/-- C9: calling `rename` on an entity whose stored node is not one of
the six renameable declaration kinds raises no error and mutates
nothing: it returns normally with `referencesUpdated = 0`, an empty
`filesModified` list, and the project state (every loaded file's text)
unchanged. -/
theorem rename_nonrenameable_noop {σ : Type} (prov : RenameService.RenameProvider σ)
    (st : σ) (e : Entity) (newName : String)
    (h : RenameService.isRenameable e.nodeKind = false) :
    RenameService.rename prov st e newName =
      ({ oldName := e.name, newName := newName, filesModified := [],
         referencesUpdated := 0 }, st) := by
  simp [RenameService.rename, RenameService.findReferences, h, RenameService.dedupFirst]

/-- Witness for C9: a concrete entity holding a foreign (non-declaration)
node: rename returns the zero result and leaves the state untouched,
even though the provider would have reported a reference and would have
changed the state if asked. -/
theorem rename_nonrenameable_noop_witness :
    RenameService.isRenameable (NodeKind.otherNode "ImportSpecifier") = false ∧
      RenameService.rename
        ⟨fun _ => [⟨"/p/a.ts", "stale", 0, none⟩], fun (s : Nat) _ _ => s + 1⟩ 7
        { name := "stale", kind := .function, filePath := "/p/a.ts", line := 1,
          column := 1, isExported := false,
          nodeKind := .otherNode "ImportSpecifier", nodeStart := 0,
          fullText := "stale", usedIdentifiers := [], varStmt := none }
        "fresh" =
      ({ oldName := "stale", newName := "fresh", filesModified := [],
         referencesUpdated := 0 }, 7) :=
  ⟨by decide,
   rename_nonrenameable_noop
     ⟨fun _ => [⟨"/p/a.ts", "stale", 0, none⟩], fun (s : Nat) _ _ => s + 1⟩ 7
     { name := "stale", kind := .function, filePath := "/p/a.ts", line := 1,
       column := 1, isExported := false,
       nodeKind := .otherNode "ImportSpecifier", nodeStart := 0,
       fullText := "stale", usedIdentifiers := [], varStmt := none }
     "fresh" (by decide)⟩

/-- Counterexample to C3 as stated: when the provider throws while
resolving `brokenEntity`'s references, the scan does continue (the later
`liveEntity` is analyzed and correctly classified live), but the failing
entity is NOT skipped — it appears in the returned sequence, reported as
unused. -/
theorem findUnused_failure_not_skipped :
    UnusedService.findUnused
        [⟨"/p/src/util.ts", [brokenEntity]⟩, ⟨"/p/src/other.ts", [liveEntity]⟩]
        failingRefsOf =
      [⟨brokenEntity, "Exported but never imported or used elsewhere"⟩] := by
  decide

/-- Helper: a member of the concatenated entity lists of a file scan. -/
theorem mem_flatMap_entities {files : List FileEntry} {e : Entity}
    (h : e ∈ files.flatMap (·.entities)) :
    ∃ f ∈ files, e ∈ f.entities := by
  simpa using List.mem_flatMap.mp h

/-- C3 (amended): if reference resolution for one entity fails, the scan
is not aborted and the error is swallowed, but the entity is not
skipped: it is treated as having zero references, so (unless its file is
an entry point) it is classified unused with the zero-reference reason
and appears in the returned sequence alongside the results for the
remaining entities. -/
theorem findUnused_failure_reported
    (refsOf : Entity → Option (List RefNode)) (e : Entity)
    (h1 : refsOf e = none)
    (h2 : (jsEndsWith e.filePath "index.ts" || jsEndsWith e.filePath "main.ts")
            = false) :
    UnusedService.checkIfUnused refsOf e =
      ⟨true, if e.isExported then "Exported but never imported or used elsewhere"
             else "Not exported and never used in its file"⟩ ∧
    ∀ files : List FileEntry, e ∈ files.flatMap (·.entities) →
      (⟨e, if e.isExported then "Exported but never imported or used elsewhere"
           else "Not exported and never used in its file"⟩ : UnusedResult) ∈
        UnusedService.findUnused files refsOf := by
  have hrefs : UnusedService.getReferences refsOf e = [] := by
    unfold UnusedService.getReferences
    rw [h1]
    simp
  have hext : UnusedService.externalReferences refsOf e = [] := by
    unfold UnusedService.externalReferences
    rw [hrefs]
    rfl
  have hcheck : UnusedService.checkIfUnused refsOf e =
      ⟨true, if e.isExported then "Exported but never imported or used elsewhere"
             else "Not exported and never used in its file"⟩ := by
    unfold UnusedService.checkIfUnused
    rw [h2, hext]
    cases e.isExported <;> simp
  refine ⟨hcheck, ?_⟩
  intro files hmem
  obtain ⟨f, hf, he⟩ := mem_flatMap_entities hmem
  unfold UnusedService.findUnused
  rw [List.mem_flatMap]
  refine ⟨f, hf, ?_⟩
  rw [List.mem_filterMap]
  refine ⟨e, he, ?_⟩
  rw [hcheck]
  simp

/-- Witness for C3's amended theorem at a concrete failing entity and a
concrete two-file scan. -/
theorem findUnused_failure_reported_witness :
    failingRefsOf brokenEntity = none ∧
      (⟨brokenEntity, if brokenEntity.isExported
          then "Exported but never imported or used elsewhere"
          else "Not exported and never used in its file"⟩ : UnusedResult) ∈
        UnusedService.findUnused
          [⟨"/p/src/util.ts", [brokenEntity]⟩, ⟨"/p/src/other.ts", [liveEntity]⟩]
          failingRefsOf :=
  ⟨by decide,
   (findUnused_failure_reported failingRefsOf brokenEntity (by decide)
       (by decide)).2
     [⟨"/p/src/util.ts", [brokenEntity]⟩, ⟨"/p/src/other.ts", [liveEntity]⟩]
     (by decide)⟩

/-- Helper: filtering drops length when some member fails the predicate. -/
theorem length_filter_ne_of_mem {α : Type} {p : α → Bool} {l : List α} {x : α}
    (hx : x ∈ l) (hp : p x = false) : (l.filter p).length ≠ l.length := by
  intro heq
  have := (List.filter_length_eq_length.mp heq) x hx
  rw [hp] at this
  cases this

/-- C4: `findUnused` never over-reports.  If the provider resolves for an
entity a reference located in a different file (hence outside the
definition-site tolerance window), the entity is classified live and is
absent from every scan's result, exported or not. -/
theorem findUnused_sound
    (refsOf : Entity → Option (List RefNode)) (e : Entity)
    (refs : List RefNode) (r : RefNode)
    (hk : UnusedService.isDeclarationNode e.nodeKind = true)
    (hp : refsOf e = some refs) (hr : r ∈ refs)
    (hf : r.filePath ≠ e.filePath) :
    ∀ files : List FileEntry, ∀ u ∈ UnusedService.findUnused files refsOf,
      u.entity ≠ e := by
  have hrefs : UnusedService.getReferences refsOf e = refs := by
    unfold UnusedService.getReferences
    rw [hp, hk]
    rfl
  have hwin : UnusedService.definitionWindow e r = false := by
    unfold UnusedService.definitionWindow
    rw [Bool.and_eq_false_iff]
    left
    exact beq_eq_false_iff_ne.mpr hf
  have hmem : r ∈ UnusedService.externalReferences refsOf e := by
    unfold UnusedService.externalReferences
    rw [hrefs]
    exact List.mem_filter.mpr ⟨hr, by rw [hwin]; rfl⟩
  have hext : ((UnusedService.externalReferences refsOf e).length == 0)
      = false := by
    rw [beq_eq_false_iff_ne]
    intro h0
    rw [List.length_eq_zero] at h0
    rw [h0] at hmem
    cases hmem
  have hsame : ((UnusedService.sameFileRefs refsOf e).length ==
      (UnusedService.externalReferences refsOf e).length) = false := by
    rw [beq_eq_false_iff_ne]
    unfold UnusedService.sameFileRefs
    exact length_filter_ne_of_mem hmem (beq_eq_false_iff_ne.mpr hf)
  have hcheck : (UnusedService.checkIfUnused refsOf e).unused = false := by
    unfold UnusedService.checkIfUnused
    by_cases hentry :
        (jsEndsWith e.filePath "index.ts" || jsEndsWith e.filePath "main.ts")
          = true
    · rw [if_pos hentry]
    · rw [if_neg hentry, hext]
      cases hexp : e.isExported
      · simp only [Bool.false_eq_true, if_false, Bool.not_false, if_true]
        rw [hsame]
        simp
      · simp
  intro files u hu hue
  unfold UnusedService.findUnused at hu
  rw [List.mem_flatMap] at hu
  obtain ⟨f, _, hu⟩ := hu
  rw [List.mem_filterMap] at hu
  obtain ⟨e', _, he'⟩ := hu
  by_cases hc : (UnusedService.checkIfUnused refsOf e').unused = true
  · rw [if_pos hc] at he'
    have : u.entity = e' := by
      cases he'
      rfl
    rw [hue] at this
    rw [← this] at hc
    rw [hcheck] at hc
    cases hc
  · rw [if_neg hc] at he'
    cases he'

/-- Witness for C4: a concrete non-exported entity with one resolvable
reference in another file is not reported by a concrete scan that
includes it. -/
theorem findUnused_sound_witness :
    UnusedService.isDeclarationNode liveEntity.nodeKind = true ∧
      failingRefsOf liveEntity = some [⟨"/p/src/third.ts", "live()", 0, none⟩] ∧
      ∀ u ∈ UnusedService.findUnused [⟨"/p/src/other.ts", [liveEntity]⟩]
          failingRefsOf, u.entity ≠ liveEntity :=
  ⟨by decide, by decide,
   findUnused_sound failingRefsOf liveEntity
     [⟨"/p/src/third.ts", "live()", 0, none⟩]
     ⟨"/p/src/third.ts", "live()", 0, none⟩
     (by decide) (by decide) (by decide) (by decide)
     [⟨"/p/src/other.ts", [liveEntity]⟩]⟩

/-- Helper: a chain of three filters collapses to one conjunction. -/
theorem filter_chain3 {α : Type} (p q w : α → Bool) (l : List α) :
    ((l.filter p).filter q).filter w =
      l.filter (fun a => p a && (q a && w a)) := by
  rw [List.filter_filter, List.filter_filter]
  apply List.filter_congr
  intro a _
  cases p a <;> cases q a <;> cases w a <;> rfl

/-- Helper: a chain of two filters collapses to one conjunction. -/
theorem filter_chain2 {α : Type} (p q : α → Bool) (l : List α) :
    (l.filter p).filter q = l.filter (fun a => p a && q a) := by
  rw [List.filter_filter]
  apply List.filter_congr
  intro a _
  cases p a <;> cases q a <;> rfl

/-- C6: `search` returns exactly the entities of the eligible files that
satisfy the conjunction of the given filters — no name means every
entity passes; a name without `regex` is a case-insensitive substring
filter; a name with `regex` is a compiled case-insensitive pattern
filter whose invalid patterns propagate an error; `kind` and `exported`
are exact-match filters. -/
theorem search_eq_searchSpec (eng : RegexEngine) (files : List SrcFile)
    (options : SearchOptions) :
    SearchService.search eng files options =
      SearchService.searchSpec eng files options := by
  unfold SearchService.search SearchService.searchSpec
  cases hname : strTruthy options.name
  · simp only [Bool.false_eq_true, if_false]
    rcases hk : options.kind with _ | k <;>
      rcases he : options.exported with _ | b <;>
      simp only [SearchService.kindPass, SearchService.exportedPass, hk, he] <;>
      congr 1 <;>
      simp [filter_chain2, Bool.and_comm, Bool.and_left_comm, Bool.and_assoc]
  · simp only [if_true]
    cases hregex : options.regex
    · simp only [Bool.false_eq_true, if_false]
      rcases hk : options.kind with _ | k <;>
        rcases he : options.exported with _ | b <;>
        simp only [SearchService.kindPass, SearchService.exportedPass, hk, he] <;>
        congr 1 <;>
        simp [filter_chain2, filter_chain3, Bool.and_comm, Bool.and_left_comm,
          Bool.and_assoc]
    · simp only [if_true]
      rcases hc : eng.compile (options.name.getD "") with _ | test
      · rfl
      · rcases hk : options.kind with _ | k <;>
          rcases he : options.exported with _ | b <;>
          simp only [SearchService.kindPass, SearchService.exportedPass, hk,
            he] <;>
          congr 1 <;>
          simp [filter_chain2, filter_chain3, Bool.and_comm,
            Bool.and_left_comm, Bool.and_assoc]

/-- Helper: a list is a `isPrefixOf` of itself. -/
theorem isPrefixOf_self (l : List Char) : l.isPrefixOf l = true := by
  induction l with
  | nil => rfl
  | cons c t ih => simp [List.isPrefixOf, ih]

/-- Helper: a string contains itself as a substring. -/
theorem jsIncludes_self (s : String) : jsIncludes s s = true := by
  unfold jsIncludes listContainsRun
  rw [isPrefixOf_self]
  simp

/-- Helper: a name-pattern match never captures the empty string. -/
theorem findNameMatch_ne_empty :
    ∀ cs x, findNameMatch cs = some x → x ≠ "" := by
  intro cs
  induction cs with
  | nil => intro x h; cases h
  | cons c rest ih =>
      intro x h
      unfold findNameMatch at h
      by_cases hpre : cannotFindNameLit.isPrefixOf (c :: rest) = true
      · rw [if_pos hpre] at h
        by_cases hrun :
            (((c :: rest).drop cannotFindNameLit.length).takeWhile
              isWordChar).isEmpty = true
        · rw [if_pos hrun] at h
          exact ih x h
        · rw [if_neg hrun] at h
          rcases hdrop : ((c :: rest).drop cannotFindNameLit.length).drop
              (((c :: rest).drop cannotFindNameLit.length).takeWhile
                isWordChar).length with _ | ⟨c2, t2⟩ <;> rw [hdrop] at h <;>
            dsimp only at h
          · exact ih x h
          · by_cases hq : (c2 == quoteChar) = true
            · rw [if_pos hq] at h
              have hx : x = String.mk (((c :: rest).drop
                  cannotFindNameLit.length).takeWhile isWordChar) := by
                cases h
                rfl
              intro hempty
              rw [hempty] at hx
              have : (((c :: rest).drop cannotFindNameLit.length).takeWhile
                  isWordChar) = [] := by
                have := congrArg String.toList hx
                simpa using this.symm
              rw [← List.isEmpty_iff] at this
              exact hrun this
            · rw [if_neg hq] at h
              exact ih x h
      · rw [if_neg hpre] at h
        exact ih x h

/-- Helper: searching with a plain non-empty name reduces to a
case-insensitive substring filter over all entities. -/
theorem search_plain_name (eng : RegexEngine) (files : List SrcFile)
    (x : String) (hx : ¬(x = "")) :
    SearchService.search eng files { name := some x } =
      Except.ok
        { entities := (files.flatMap (·.entities)).filter (fun e =>
            jsIncludes (jsToLower e.name) (jsToLower x)),
          totalFiles := files.length } := by
  have htruthy : strTruthy (some x) = true := by
    unfold strTruthy
    simp [hx]
  have helig : SearchService.fileEligible { name := some x } =
      fun _ : SrcFile => true := by
    funext f
    rfl
  unfold SearchService.search
  rw [helig, htruthy]
  simp

/-- Helper: refining the substring search result by the exact-match
candidate filter equals filtering all entities directly. -/
theorem filter_exact_of_substring (ents : List Entity) (f : SrcFile)
    (x : String) :
    ((ents.filter (fun e => jsIncludes (jsToLower e.name) (jsToLower x))).filter
        (ImportsService.exactMatchFilter f x)) =
      ents.filter (ImportsService.exactMatchFilter f x) := by
  rw [List.filter_filter]
  apply List.filter_congr
  intro e _
  cases hq : ImportsService.exactMatchFilter f x e
  · rfl
  · have hname : e.name = x := by
      unfold ImportsService.exactMatchFilter at hq
      rcases Bool.and_eq_true_iff.mp hq with ⟨h1, _⟩
      rcases Bool.and_eq_true_iff.mp h1 with ⟨h2, _⟩
      exact eq_of_beq h2
    rw [Bool.true_and]
    rw [hname]
    exact jsIncludes_self (jsToLower x)

/-- Helper: per-diagnostic agreement between the implementation and the
spec model. -/
theorem analyzeDiagnostic_eq_spec (eng : RegexEngine) (files : List SrcFile)
    (f : SrcFile) (d : Diagnostic) :
    ImportsService.analyzeDiagnostic eng files f d =
      Except.ok (ImportsService.analyzeDiagnosticSpec files f d) := by
  unfold ImportsService.analyzeDiagnostic ImportsService.analyzeDiagnosticSpec
  by_cases hcat : (d.category == DiagCategory.error) = true
  · rw [if_pos hcat, if_pos hcat]
    rcases hname : matchCannotFindName d.message with _ | missingName
    · rcases hmod : matchCannotFindModule d.message with _ | moduleName <;> rfl
    · have hx : ¬(missingName = "") :=
        findNameMatch_ne_empty d.message.toList missingName hname
      dsimp only
      rw [search_plain_name eng files missingName hx]
      dsimp only
      rw [filter_exact_of_substring (files.flatMap (·.entities)) f missingName]
      unfold ImportsService.specCandidates
      rcases hmod : matchCannotFindModule d.message with _ | moduleName <;>
        by_cases hlen : 0 < ((files.flatMap (·.entities)).filter
            (ImportsService.exactMatchFilter f missingName)).length <;>
        simp [hlen]
  · rw [if_neg hcat, if_neg hcat]

/-- Helper: per-file agreement between implementation and spec model. -/
theorem analyzeFileDiags_eq_spec (eng : RegexEngine) (files : List SrcFile)
    (f : SrcFile) (ds : List Diagnostic) :
    ImportsService.analyzeFileDiags eng files f ds =
      Except.ok (ImportsService.analyzeFileDiagsSpec files f ds) := by
  induction ds with
  | nil => rfl
  | cons d rest ih =>
      unfold ImportsService.analyzeFileDiags
        ImportsService.analyzeFileDiagsSpec
      rw [analyzeDiagnostic_eq_spec, ih]

/-- Helper: whole-scan agreement between implementation and spec
model. -/
theorem analyzeFiles_eq_spec (eng : RegexEngine) (files : List SrcFile)
    (fs : List SrcFile) :
    ImportsService.analyzeFiles eng files fs =
      Except.ok (ImportsService.analyzeFilesSpec files fs) := by
  induction fs with
  | nil => rfl
  | cons f rest ih =>
      unfold ImportsService.analyzeFiles ImportsService.analyzeFilesSpec
      rw [analyzeFileDiags_eq_spec, ih]

/-- C5: `analyzeImportErrors` classifies every error diagnostic matching
the `Cannot find name X` pattern as fixable iff at least one exported
entity literally named `X` exists in a file different from the erroring
file; when fixable its candidates are exactly all such entities in
extraction order, and with zero matches the diagnostic is unfixable
with the no-exported-entity-named-X reason.  Stated as agreement with
the spec-level analysis built on a direct exact-match project search. -/
theorem analyzeImportErrors_eq_spec (eng : RegexEngine)
    (files : List SrcFile) :
    ImportsService.analyzeImportErrors eng files =
      Except.ok (ImportsService.analyzeImportErrorsSpec files) := by
  unfold ImportsService.analyzeImportErrors
    ImportsService.analyzeImportErrorsSpec
  rw [analyzeFiles_eq_spec]

/-- Counterexample to C7 as stated: `matchesPattern` does not implement
glob semantics where `**` crosses path separators — it rejects
`a/x/y/b.ts` against `a/**/b.ts`, which glob semantics accept, and it
rejects `/node_modules/foo.ts` against the default exclude pattern
`**/node_modules/**` even though that file lies under a `node_modules`
directory (glob semantics accept it). -/
theorem matchesPattern_not_glob :
    ProjectManager.matchesPattern "a/x/y/b.ts" "a/**/b.ts" = false ∧
    globSpecMatchStr "a/x/y/b.ts" "a/**/b.ts" = true ∧
    ProjectManager.matchesPattern "/node_modules/foo.ts" "**/node_modules/**"
      = false ∧
    globSpecMatchStr "/node_modules/foo.ts" "**/node_modules/**" = true := by
  decide

/-- Helper: an unanchored match is preserved by extending the input on
the left. -/
theorem testRe_cons (t : List GTok) (x : Char) (xs : List Char)
    (h : ProjectManager.testRe t xs = true) :
    ProjectManager.testRe t (x :: xs) = true := by
  unfold ProjectManager.testRe
  cases xs <;> rw [h] <;> simp

/-- Helper: an unanchored match is preserved under any left context. -/
theorem testRe_append (t : List GTok) (pre s : List Char)
    (h : ProjectManager.testRe t s = true) :
    ProjectManager.testRe t (pre ++ s) = true := by
  induction pre with
  | nil => exact h
  | cons x xs ih => exact testRe_cons t x (xs ++ s) ih

/-- Helper: a trailing `[^/]*` token alone matches at any position. -/
theorem matchHere_star_nil (s : List Char) :
    ProjectManager.matchHere [GTok.starNonSlash] s = true := by
  cases s with
  | nil => rfl
  | cons x xs => simp [ProjectManager.matchHere, nonSlashSuffixes]

/-- Helper: the non-slash suffix list is never empty. -/
theorem exists_mem_nonSlashSuffixes (s : List Char) :
    ∃ x, x ∈ nonSlashSuffixes s := by
  cases s with
  | nil => exact ⟨[], by simp [nonSlashSuffixes]⟩
  | cons x xs => exact ⟨x :: xs, by simp [nonSlashSuffixes]⟩

/-- C7 (amended): in the compiled pattern `**` matches one arbitrary
character followed by a run of non-separator characters (the second
replacement also rewrites the `*` inside the `.*` produced for `**`),
and the test is an unanchored substring search.  Consequently the
default exclude pattern `**/node_modules/**` excludes every file whose
path contains `/node_modules/` preceded by at least one character and
followed by at least one character. -/
theorem matchesPattern_node_modules (pre post : List Char) (c d : Char)
    (hc : isLineTerm c = false) (hd : isLineTerm d = false) :
    ProjectManager.matchesPattern
        (String.mk (pre ++ c :: ("/node_modules/".toList ++ d :: post)))
        "**/node_modules/**" = true := by
  unfold ProjectManager.matchesPattern
  have hts : (String.mk (pre ++ c :: ("/node_modules/".toList ++ d :: post))).toList
      = pre ++ c :: ("/node_modules/".toList ++ d :: post) := rfl
  rw [hts]
  apply testRe_append
  have hbase : ProjectManager.matchHere
      (ProjectManager.globCompile "**/node_modules/**".toList)
      (c :: ("/node_modules/".toList ++ d :: post)) = true := by
    simp [ProjectManager.globCompile, ProjectManager.matchHere,
      nonSlashSuffixes, hc, hd, matchHere_star_nil,
      exists_mem_nonSlashSuffixes]
  unfold ProjectManager.testRe
  rw [hbase]
  simp

/-- Witness for C7's amended theorem at a concrete project path. -/
theorem matchesPattern_node_modules_witness :
    isLineTerm 'p' = false ∧ isLineTerm 'f' = false ∧
      ProjectManager.matchesPattern "/app/node_modules/foo.ts"
        "**/node_modules/**" = true :=
  ⟨by decide, by decide,
   matchesPattern_node_modules "/ap".toList "oo.ts".toList 'p' 'f'
     (by decide) (by decide)⟩

/-- Counterexample to C2 as stated: `notes.txt` does not end in a
recognized source extension, yet `extract` does not reject — it returns
normally and mutates the Project Index, creating the destination file
(the loaded-file count grows from one to two). -/
theorem extract_accepts_bad_extension :
    isTypeScriptFile "notes.txt" = false ∧
      (ExtractService.extract (fun _ => false) extractDemoState greetEntity
          "notes.txt").2 ≠ extractDemoState ∧
      (ExtractService.extract (fun _ => false) extractDemoState greetEntity
          "notes.txt").2.files.length = 2 := by
  decide

/-- C2 (amended): `extract` performs no validation of the target path's
extension — the `.ts`/`.tsx` requirement lives only in the interactive
CLI prompt validation.  For any target path, with any extension, whose
resolved destination is not a loaded file, `extract` proceeds and
mutates the Project Index, growing the loaded-file set by the created
destination. -/
theorem extract_mutates_without_validation (fsExists : String → Bool)
    (st : ProjectState) (e : Entity) (targetPath : String)
    (h1 : isTypeScriptFile targetPath = false)
    (h2 : st.files.find?
        (fun f => f.path == ExtractService.absTarget st targetPath) = none) :
    (ExtractService.extract fsExists st e targetPath).2.files.length =
      st.files.length + 1 := by
  unfold ExtractService.extract
  dsimp only
  rw [h2]
  simp [ExtractService.updateSourceFileImports,
    ExtractService.removeEntityFromSource, ExtractService.addImportToSource]

/-- Witness for C2's amended theorem: extracting to `notes.txt` in the
demo project adds the new destination file. -/
theorem extract_mutates_without_validation_witness :
    isTypeScriptFile "notes.txt" = false ∧
      (ExtractService.extract (fun _ => false) extractDemoState greetEntity
          "notes.txt").2.files.length = extractDemoState.files.length + 1 :=
  ⟨by decide,
   extract_mutates_without_validation (fun _ => false) extractDemoState
     greetEntity "notes.txt" (by decide) (by decide)⟩

/-- C10: when the fix's error file path is not a loaded source file,
`fixImport` returns `false` and leaves every loaded file unchanged,
whatever the candidate selection state. -/
theorem fixImport_unloaded_noop (files : List SrcFile) (fix : FixableImport)
    (h : files.find? (fun f => f.path == fix.error.file) = none) :
    ImportsService.fixImport files fix = (false, files) := by
  unfold ImportsService.fixImport
  rcases hsel : fix.selectedCandidate with _ | c
  · dsimp only
    by_cases hlen : (fix.candidates.length == 1) = true
    · rw [if_pos hlen]
      rcases hh : fix.candidates.head? with _ | cand
      · rfl
      · dsimp only
        rw [h]
    · rw [if_neg hlen]
  · dsimp only
    rw [h]

/-- Witness for C10 at a concrete project and fix. -/
theorem fixImport_unloaded_noop_witness :
    extractDemoState.files.find?
        (fun f => f.path == orphanFix.error.file) = none ∧
      ImportsService.fixImport extractDemoState.files orphanFix =
        (false, extractDemoState.files) :=
  ⟨by decide,
   fixImport_unloaded_noop extractDemoState.files orphanFix (by decide)⟩

/-- Helper: line counting distributes over append. -/
theorem countLine_append (a b : List String) (s : String) :
    countLineOccurrences (a ++ b) s =
      countLineOccurrences a s + countLineOccurrences b s := by
  unfold countLineOccurrences
  rw [List.filter_append, List.length_append]

/-- Helper: the merged line list of `mergeContent` never adds another
copy of an import line that is already textually present in the
destination — its count among the lines is unchanged (the appended
blank line and declaration text being distinct from the import
line). -/
theorem mergeLines_count (existing txt : String) (imps : List String)
    (imp : String) (hin : jsIncludes existing imp = true)
    (hne1 : ¬(imp = txt)) (hne2 : ¬(imp = "")) :
    countLineOccurrences (ExtractService.mergeLines existing txt imps) imp =
      countLineOccurrences (splitLines existing) imp := by
  unfold ExtractService.mergeLines
  dsimp only
  have hadd : countLineOccurrences
      (imps.filter (fun i => !(jsIncludes existing i))) imp = 0 := by
    unfold countLineOccurrences
    rw [List.length_eq_zero, List.filter_eq_nil_iff]
    intro i hi hieq
    have hieq' : i = imp := eq_of_beq hieq
    have hmem := (List.mem_filter.mp hi).2
    rw [hieq', hin] at hmem
    cases hmem
  have hblank : ((("" : String) == imp)) = false :=
    beq_eq_false_iff_ne.mpr (fun hh => hne2 hh.symm)
  have htxt : ((txt == imp)) = false :=
    beq_eq_false_iff_ne.mpr (fun hh => hne1 hh.symm)
  have htail : countLineOccurrences ["", txt] imp = 0 := by
    simp [countLineOccurrences, List.filter, hblank, htxt]
  by_cases hlen :
      0 < (imps.filter (fun i => !(jsIncludes existing i))).length
  · rw [if_pos hlen]
    cases hli : ExtractService.lastImportIndex (splitLines existing) with
    | some i =>
        unfold ExtractService.spliceAfter
        rw [countLine_append, countLine_append, countLine_append, hadd, htail]
        have hsplit := List.take_append_drop (i + 1) (splitLines existing)
        have := countLine_append ((splitLines existing).take (i + 1))
          ((splitLines existing).drop (i + 1)) imp
        rw [hsplit] at this
        omega
    | none =>
        rw [countLine_append, countLine_append, countLine_append, hadd, htail]
        have hb : countLineOccurrences [""] imp = 0 := by
          simp [countLineOccurrences, List.filter, hblank]
        rw [hb]
        omega
  · rw [if_neg hlen]
    rw [countLine_append, htail]
    omega

/-- Helper: tracing a member of a path/text-preserving map back to its
preimage. -/
theorem srcfile_trace_map {g : SrcFile → SrcFile}
    (hg : ∀ f, (g f).path = f.path ∧ (g f).text = f.text)
    {l : List SrcFile} {f2 : SrcFile} (h : f2 ∈ l.map g) :
    ∃ f1 ∈ l, f2.path = f1.path ∧ f2.text = f1.text := by
  rw [List.mem_map] at h
  obtain ⟨f1, hf1, rfl⟩ := h
  exact ⟨f1, hf1, (hg f1).1, (hg f1).2⟩

/-- Helper: import rewiring keeps each file's path and text. -/
theorem updateSourceFileImports_mem (fsExists : String → Bool)
    (files : List SrcFile) (e : Entity) (t : String) {f2 : SrcFile}
    (h : f2 ∈ (ExtractService.updateSourceFileImports fsExists files e t).1) :
    ∃ f1 ∈ files, f2.path = f1.path ∧ f2.text = f1.text := by
  refine srcfile_trace_map ?_ h
  intro f
  by_cases hc : (f.path == e.filePath || f.path == t) = true
  · rw [if_pos hc]
    exact ⟨rfl, rfl⟩
  · rw [if_neg hc]
    exact ⟨rfl, rfl⟩

/-- Helper: origin-declaration removal keeps each file's path and
text. -/
theorem removeEntityFromSource_mem (files : List SrcFile) (e : Entity)
    {f2 : SrcFile}
    (h : f2 ∈ ExtractService.removeEntityFromSource files e) :
    ∃ f1 ∈ files, f2.path = f1.path ∧ f2.text = f1.text := by
  refine srcfile_trace_map ?_ h
  intro f
  by_cases hc : (f.path == e.filePath) = true
  · rw [if_pos hc]
    exact ⟨rfl, rfl⟩
  · rw [if_neg hc]
    exact ⟨rfl, rfl⟩

/-- Helper: adding the back-import keeps each file's path and text. -/
theorem addImportToSource_mem (files : List SrcFile)
    (sp en tp : String) {f2 : SrcFile}
    (h : f2 ∈ ExtractService.addImportToSource files sp en tp) :
    ∃ f1 ∈ files, f2.path = f1.path ∧ f2.text = f1.text := by
  refine srcfile_trace_map ?_ h
  intro f
  by_cases hc : (f.path == sp) = true
  · rw [if_pos hc]
    generalize List.find?
      (fun i => i.moduleSpecifier == removeExtension (getRelativePath sp tp))
      f.imports = r
    rcases r with _ | ex <;> dsimp only
    · exact ⟨rfl, rfl⟩
    · by_cases hany : (ex.namedImports.any (fun n => n == en)) = true
      · rw [if_pos hany]
        exact ⟨rfl, rfl⟩
      · rw [if_neg hany]
        exact ⟨rfl, rfl⟩
  · rw [if_neg hc]
    exact ⟨rfl, rfl⟩

/-- C8: extracting into an already-loaded destination rewrites that
destination's text to exactly the merge of its previous text with the
moved declaration and its carried-over imports — only import lines not
already textually present are inserted — and consequently an import
line already present in the destination is never duplicated: its line
count in the merged content equals its count in the previous content. -/
theorem extract_merge_no_duplicates (fsExists : String → Bool)
    (st : ProjectState) (e : Entity) (targetPath : String) (tf : SrcFile)
    (htf : st.files.find?
        (fun f => f.path == ExtractService.absTarget st targetPath)
      = some tf) :
    (∀ f2 ∈ (ExtractService.extract fsExists st e targetPath).2.files,
        f2.path = ExtractService.absTarget st targetPath →
        f2.text = ExtractService.mergeContent tf.text
          (ExtractService.getFullEntityText e)
          (ExtractService.getRequiredImports e
            (ExtractService.sourceImportsOf st e))) ∧
    (∀ imp ∈ ExtractService.getRequiredImports e
        (ExtractService.sourceImportsOf st e),
        jsIncludes tf.text imp = true →
        ¬(imp = ExtractService.getFullEntityText e) → ¬(imp = "") →
        countLineOccurrences
            (ExtractService.mergeLines tf.text
              (ExtractService.getFullEntityText e)
              (ExtractService.getRequiredImports e
                (ExtractService.sourceImportsOf st e))) imp =
          countLineOccurrences (splitLines tf.text) imp) := by
  constructor
  · intro f2 hmem hpath
    have hrepr : (ExtractService.extract fsExists st e targetPath).2.files =
        ExtractService.addImportToSource
          (ExtractService.removeEntityFromSource
            ((ExtractService.updateSourceFileImports fsExists
              (st.files.map (fun f =>
                if f.path == ExtractService.absTarget st targetPath then
                  { f with text :=
                      (ExtractService.mergeContent tf.text
                        (ExtractService.getFullEntityText e)
                        (ExtractService.getRequiredImports e
                          (ExtractService.sourceImportsOf st e))) }
                else f))
              e (ExtractService.absTarget st targetPath)).1) e)
          e.filePath e.name (ExtractService.absTarget st targetPath) := by
      unfold ExtractService.extract
      dsimp only
      rw [htf]
    rw [hrepr] at hmem
    obtain ⟨f3, hf3, hp3, ht3⟩ := addImportToSource_mem _ _ _ _ hmem
    obtain ⟨f4, hf4, hp4, ht4⟩ := removeEntityFromSource_mem _ _ hf3
    obtain ⟨f5, hf5, hp5, ht5⟩ := updateSourceFileImports_mem _ _ _ _ hf4
    obtain ⟨f0, hf0, rfl⟩ := List.mem_map.mp hf5
    by_cases hc : (f0.path == ExtractService.absTarget st targetPath) = true
    · rw [if_pos hc] at ht5
      rw [ht3, ht4, ht5]
    · rw [if_neg hc] at hp5
      exfalso
      apply hc
      rw [beq_iff_eq, ← hp5, ← hp4, ← hp3]
      exact hpath
  · intro imp _ hin hne1 hne2
    exact mergeLines_count tf.text (ExtractService.getFullEntityText e) _
      imp hin hne1 hne2

/-- Witness for C8 at the merge demo: the destination is loaded, and
extraction merges into it without duplicating its import line. -/
theorem extract_merge_no_duplicates_witness :
    mergeDemoState.files.find?
        (fun f => f.path == ExtractService.absTarget mergeDemoState "src/b.ts")
      = some mergeTargetFile ∧
    ((∀ f2 ∈ (ExtractService.extract (fun _ => false) mergeDemoState
          utilEntity "src/b.ts").2.files,
        f2.path = ExtractService.absTarget mergeDemoState "src/b.ts" →
        f2.text = ExtractService.mergeContent mergeTargetFile.text
          (ExtractService.getFullEntityText utilEntity)
          (ExtractService.getRequiredImports utilEntity
            (ExtractService.sourceImportsOf mergeDemoState utilEntity))) ∧
     (∀ imp ∈ ExtractService.getRequiredImports utilEntity
          (ExtractService.sourceImportsOf mergeDemoState utilEntity),
        jsIncludes mergeTargetFile.text imp = true →
        ¬(imp = ExtractService.getFullEntityText utilEntity) → ¬(imp = "") →
        countLineOccurrences
            (ExtractService.mergeLines mergeTargetFile.text
              (ExtractService.getFullEntityText utilEntity)
              (ExtractService.getRequiredImports utilEntity
                (ExtractService.sourceImportsOf mergeDemoState utilEntity)))
            imp =
          countLineOccurrences (splitLines mergeTargetFile.text) imp)) :=
  ⟨by decide,
   extract_merge_no_duplicates (fun _ => false) mergeDemoState utilEntity
     "src/b.ts" mergeTargetFile (by decide)⟩

end ReType
